/-
  Verification of the KeysightDSOX2000 repository against its
  natural-language specification.

  The repository has two independent subsystems:
  * a waveform binary-block decoder (part of the PyVISA instrument
    interface package; only its README and callers are present under
    src/, so the decoder itself is modelled from the specification), and
  * a batch CSV plotting script (src/scopeplot2002.pyw), embedded below.

  Machine floats are modelled by exact rationals (ℚ); NaN cells of a
  loaded table are modelled by `none : Option ℚ`.
-/
import Mathlib

deriving instance DecidableEq for Except

namespace DSOX2000

/-! ## Waveform binary-block decoder (modelled from the spec, §4.1) -/

/-- Modelled from the spec: the metadata record accompanying a waveform
binary block — {number_of_points, x_increment, x_origin, x_reference,
y_increment, y_origin, y_reference}.  The decoder module itself is not
under src/ (only its README and callers are). -/
structure WfMeta where
  number_of_points : Nat
  x_increment : ℚ
  x_origin : ℚ
  x_reference : ℚ
  y_increment : ℚ
  y_origin : ℚ
  y_reference : ℚ
deriving DecidableEq

/-- Modelled from the spec: the error raised on a header/length/sample-count
inconsistency of a binary block (`MalformedBlockError`). -/
inductive MalformedBlockError where
  /-- Missing marker byte, or non-numeric or truncated header digits. -/
  | header : MalformedBlockError
  /-- Declared payload length disagrees with the bytes actually available. -/
  | length : MalformedBlockError
  /-- Decoded sample count (or byte-width divisibility) mismatches the
  declared point count. -/
  | count : MalformedBlockError
deriving DecidableEq

/-- ASCII decimal digit test on a byte value. -/
def isDigit (b : Nat) : Bool := 48 ≤ b && b ≤ 57

/-- Value of a big-endian sequence of ASCII decimal digits. -/
def natOfDigits (ds : List Nat) : Nat :=
  ds.foldl (fun a d => 10 * a + (d - 48)) 0

/-- Modelled from the spec: parse the vendor block header — a marker byte
`#` (35), one digit giving the count of length digits, that many digits
giving the payload length, then the payload, optionally followed by one
trailing terminator byte which is discarded.  Returns the payload bytes,
or `MalformedBlockError` when the marker is absent, the header digits are
non-numeric or truncated, or the declared length disagrees with the bytes
available. -/
def parseBlock (block : List Nat) : Except MalformedBlockError (List Nat) :=
  match block with
  | m :: d :: rest =>
    if m = 35 ∧ isDigit d then
      let n := d - 48
      let ds := rest.take n
      if ds.length = n ∧ ds.all isDigit then
        let L := natOfDigits ds
        let tail := rest.drop n
        if tail.length = L ∨ tail.length = L + 1 then
          Except.ok (tail.take L)
        else Except.error MalformedBlockError.length
      else Except.error MalformedBlockError.header
    else Except.error MalformedBlockError.header
  | _ => Except.error MalformedBlockError.header

/-- Value of a big-endian group of payload bytes. -/
def bytesToNat (bs : List Nat) : Nat :=
  bs.foldl (fun a b => 256 * a + b) 0

/-- Recursion core of `toSamples`; the first argument is structural fuel,
always instantiated with the byte count so that it never runs out. -/
def toSamplesAux (width : Nat) : Nat → List Nat → List Nat
  | _, [] => []
  | 0, _ :: _ => []
  | fuel + 1, b :: rest =>
      bytesToNat (b :: rest.take (width - 1))
        :: toSamplesAux width fuel (rest.drop (width - 1))

/-- Modelled from the spec: interpret the payload as a sequence of
fixed-width unsigned integers of `width` bytes each (big-endian); the
width is an explicit parameter, as the spec requires. -/
def toSamples (width : Nat) (payload : List Nat) : List Nat :=
  toSamplesAux width payload.length payload

/-- The linear scale map from a raw sample value to a physical voltage:
`(r − y_reference) × y_increment + y_origin`. -/
def voltOf (meta : WfMeta) (r : ℚ) : ℚ :=
  (r - meta.y_reference) * meta.y_increment + meta.y_origin

/-- The inverse of `voltOf`: re-encodes a physical voltage as a raw
sample value. -/
def rawOf (meta : WfMeta) (v : ℚ) : ℚ :=
  (v - meta.y_origin) / meta.y_increment + meta.y_reference

/-- The time axis for `n` samples:
`time[i] = (i − x_reference) × x_increment + x_origin`. -/
def timesFor (meta : WfMeta) (n : Nat) : List ℚ :=
  (List.range n).map
    (fun i : Nat => ((i : ℚ) - meta.x_reference) * meta.x_increment + meta.x_origin)

/-- The element-wise linear scale transform of a raw sample sequence into
a (time, voltage) trace. -/
def scaleTrace (meta : WfMeta) (raw : List ℚ) : List ℚ × List ℚ :=
  (timesFor meta raw.length, raw.map (voltOf meta))

/-- Modelled from the spec: the waveform decode — parse the block header,
slice the payload, interpret it as fixed-width unsigned samples, check
the sample count against the declared point count, and apply the linear
scale transform. -/
def decode (width : Nat) (block : List Nat) (meta : WfMeta) :
    Except MalformedBlockError (List ℚ × List ℚ) :=
  match parseBlock block with
  | Except.error e => Except.error e
  | Except.ok payload =>
    if payload.length % width = 0 then
      let raw := toSamples width payload
      if raw.length = meta.number_of_points then
        Except.ok (scaleTrace meta (raw.map (fun r : Nat => (r : ℚ))))
      else Except.error MalformedBlockError.count
    else Except.error MalformedBlockError.count

/-! Independent well-formedness predicates on a raw block, used to
characterise exactly when `decode` fails. -/

/-- The block carries the `#` marker and a well-formed, fully numeric
length digit sequence. -/
def headerOk (block : List Nat) : Bool :=
  match block with
  | m :: d :: rest =>
    decide (m = 35) && isDigit d && decide ((rest.take (d - 48)).length = d - 48)
      && (rest.take (d - 48)).all isDigit
  | _ => false

/-- The payload length declared by the header digit sequence. -/
def declaredLen (block : List Nat) : Nat :=
  match block with
  | _ :: d :: rest => natOfDigits (rest.take (d - 48))
  | _ => 0

/-- The bytes actually available after the header. -/
def availAfterHeader (block : List Nat) : Nat :=
  match block with
  | _ :: d :: rest => (rest.drop (d - 48)).length
  | _ => 0

/-- The payload slice of the block (the declared number of bytes after
the header). -/
def payloadOf (block : List Nat) : List Nat :=
  match block with
  | _ :: d :: rest => (rest.drop (d - 48)).take (natOfDigits (rest.take (d - 48)))
  | _ => []

/-- The declared length matches the bytes available (up to one discarded
trailing terminator byte). -/
def lengthOk (block : List Nat) : Bool :=
  decide (availAfterHeader block = declaredLen block)
    || decide (availAfterHeader block = declaredLen block + 1)

/-- The payload divides evenly into `width`-byte samples and the decoded
sample count equals the declared point count. -/
def samplesOk (width : Nat) (block : List Nat) (meta : WfMeta) : Bool :=
  decide ((payloadOf block).length % width = 0)
    && decide ((toSamples width (payloadOf block)).length = meta.number_of_points)

end DSOX2000

namespace ScopePlot

/-! ## Batch CSV plotter (src/scopeplot2002.pyw)

The script opens a multiple-selection file dialog, exits via `sys.exit()`
when the selection is empty, and otherwise loads each selected file with
`np.genfromtxt(path, delimiter=',')`, shifts the time column
(`t = t - np.nanmin(t)`), and renders one figure per file
(`plt.plot(t, data[:,1:])` with labels, title and scientific tick
format), finally setting `mpl.rcParams["savefig.directory"]` to the
file's directory. -/

/-- The lexical content of one delimited cell of an input file: a numeric
literal, non-numeric text, or an empty/missing field. -/
inductive RawCell where
  | num : ℚ → RawCell
  | text : RawCell
  | empty : RawCell
deriving DecidableEq

/-- Cell conversion of `np.genfromtxt`: numeric cells parse to their value,
non-numeric or missing cells become `nan` (modelled as `none`). -/
def convCell : RawCell → Option ℚ
  | RawCell.num q => some q
  | RawCell.text => none
  | RawCell.empty => none

/-- Errors the script can surface.  `genfromtxtError` is the parser's own
uncaught error on a file whose rows have inconsistent column counts;
`indexError` is NumPy's error for indexing a 1-D array with two indices;
`fileLoadError` is the spec's `FileLoadError` taxonomy entry, carrying
the offending path — nothing in the script constructs it. -/
inductive PyError where
  | genfromtxtError : PyError
  | indexError : PyError
  | fileLoadError : String → PyError
deriving DecidableEq

/-- A NumPy array as returned by `np.genfromtxt`: 1-D when the file has a
single row or a single column, 2-D otherwise. -/
inductive NDArray where
  | oneD : List (Option ℚ) → NDArray
  | twoD : List (List (Option ℚ)) → NDArray
deriving DecidableEq

/-- Model of `np.genfromtxt(path, delimiter=',')` on the file's parsed rows:
raises on inconsistent column counts; otherwise converts every cell
(unparsable cells become `nan`) and squeezes a single row or a single
column into a 1-D array. -/
def genfromtxt (rows : List (List RawCell)) : Except PyError NDArray :=
  let parsed := rows.map (fun r => r.map convCell)
  match parsed with
  | [] => Except.ok (NDArray.oneD [])
  | r :: rs =>
    if rs.all (fun row => row.length = r.length) then
      if rs.isEmpty then Except.ok (NDArray.oneD r)
      else if r.length = 1 then
        Except.ok (NDArray.oneD ((r :: rs).map (fun row => row.headD none)))
      else Except.ok (NDArray.twoD (r :: rs))
    else Except.error PyError.genfromtxtError

/-- Slice `data[:,0]`: the first column of a 2-D array; `IndexError` on a 1-D
array. -/
def col0 : NDArray → Except PyError (List (Option ℚ))
  | NDArray.oneD _ => Except.error PyError.indexError
  | NDArray.twoD rows => Except.ok (rows.map (fun r => r.headD none))

/-- Slice `data[:,1:]`: all remaining columns of a 2-D array; `IndexError` on a
1-D array. -/
def colsRest : NDArray → Except PyError (List (List (Option ℚ)))
  | NDArray.oneD _ => Except.error PyError.indexError
  | NDArray.twoD rows => Except.ok (rows.map (List.drop 1))

/-- Elementwise float subtraction where `none` models `nan`:
`nan` propagates through subtraction. -/
def osub : Option ℚ → Option ℚ → Option ℚ
  | some a, some b => some (a - b)
  | _, _ => none

/-- Model of `np.nanmin`: the minimum of the numeric entries, ignoring `nan`;
`nan` (modelled `none`) when there is no numeric entry. -/
def nanmin (xs : List (Option ℚ)) : Option ℚ :=
  match xs.filterMap id with
  | [] => none
  | y :: ys => some (ys.foldl min y)

/-- Line 56 of src/scopeplot2002.pyw: `t = t - np.nanmin(t)`. -/
def shiftTime (t : List (Option ℚ)) : List (Option ℚ) :=
  t.map (fun x => osub x (nanmin t))

/-- The path separator. -/
def pathSep : String := "/"

/-- The extension separator. -/
def extSep : String := "."

/-- Model of `os.path.basename`: the component after the last path separator. -/
def basename (p : String) : String :=
  (p.splitOn pathSep).getLastD p

/-- Model of `os.path.dirname`: everything before the last path separator. -/
def dirname (p : String) : String :=
  let parts := p.splitOn pathSep
  if parts.length ≤ 1 then "" else String.intercalate pathSep parts.dropLast

/-- Model of `os.path.splitext(...)[0]` applied to the basename: strips the last
extension. -/
def basenameNoExt (p : String) : String :=
  let b := basename p
  let parts := b.splitOn extSep
  if parts.length ≤ 1 then b else String.intercalate extSep parts.dropLast

/-- One rendered figure: window title, plotted data, axis labels, title,
and the scientific-notation tick limits passed to
`plt.ticklabel_format`. -/
structure Figure where
  windowTitle : String
  time : List (Option ℚ)
  channels : List (List (Option ℚ))
  xlabel : String
  ylabel : String
  title : String
  scilimits : Int × Int
deriving DecidableEq

/-- The per-file body of the loop (lines 54–67): load the file, slice and
shift the time column, slice the channel columns and build the figure.
Any raised error aborts the file (and, uncaught, the whole script). -/
def processFile (path : String) (rows : List (List RawCell)) : Except PyError Figure :=
  match genfromtxt rows with
  | Except.error e => Except.error e
  | Except.ok data =>
    match col0 data with
    | Except.error e => Except.error e
    | Except.ok t0 =>
      match colsRest data with
      | Except.error e => Except.error e
      | Except.ok chans =>
        Except.ok { windowTitle := basenameNoExt path
                  , time := shiftTime t0
                  , channels := chans
                  , xlabel := "Time (s)"
                  , ylabel := "Voltage (V)"
                  , title := basenameNoExt path
                  , scilimits := (-2, 2) }

/-- The loop over the selected files: each successful file appends its
figure and sets `mpl.rcParams["savefig.directory"]` to its directory
(line 67); the first uncaught error aborts the batch. -/
def runBatch (figures : List Figure) (savefigDir : Option String) :
    List (String × List (List RawCell)) → List Figure × Option String × Option PyError
  | [] => (figures, savefigDir, none)
  | f :: fs =>
    match processFile f.1 f.2 with
    | Except.error e => (figures, savefigDir, some e)
    | Except.ok fig => runBatch (figures ++ [fig]) (some (dirname f.1)) fs

/-- The observable outcome of one run of the script. -/
structure ProgResult where
  exitStatus : Nat
  figures : List Figure
  savefigDir : Option String
  uncaught : Option PyError
  /-- The input files as left on disk: the script never writes to them. -/
  disk : List (String × List (List RawCell))
deriving DecidableEq

/-- The whole script on a given selection: an empty selection hits
`sys.exit()` (lines 48–49, exit status 0, no figures); otherwise the loop
runs, and an uncaught error terminates the interpreter with a nonzero
status. -/
def scopeplotMain (files : List (String × List (List RawCell))) : ProgResult :=
  if files.isEmpty then
    { exitStatus := 0, figures := [], savefigDir := none, uncaught := none, disk := files }
  else
    match runBatch [] none files with
    | (figs, dir, none) =>
      { exitStatus := 0, figures := figs, savefigDir := dir, uncaught := none, disk := files }
    | (figs, dir, some e) =>
      { exitStatus := 1, figures := figs, savefigDir := dir, uncaught := some e, disk := files }

/-- Discriminator for the spec's `FileLoadError` taxonomy entry. -/
def isFileLoadError : PyError → Bool
  | PyError.fileLoadError _ => true
  | _ => false

/-- A concrete unparsable file: its two rows have different column
counts, so `np.genfromtxt` raises. -/
def badFile : String × List (List RawCell) :=
  ("data/bad.csv", [[RawCell.num 1, RawCell.num 2], [RawCell.num 3]])

/-- A concrete well-formed two-column file. -/
def goodFile1 : String × List (List RawCell) :=
  ("a/f1.csv", [[RawCell.num 0, RawCell.num 1], [RawCell.num 1, RawCell.num 2]])

/-- Another concrete well-formed two-column file, in a different
directory. -/
def goodFile2 : String × List (List RawCell) :=
  ("b/f2.csv", [[RawCell.num 0, RawCell.num 1], [RawCell.num 1, RawCell.num 2]])

end ScopePlot

namespace DSOX2000

/-! ## Concrete decoder scenario from the spec (§8) -/

/-- The spec's scenario block: header `#800000004` followed by the
payload bytes `[10, 20, 30, 40]` (ASCII 35 is `#`, 56 is `8`, 48 is `0`,
52 is `4`). -/
def scenarioBlock : List Nat :=
  [35, 56, 48, 48, 48, 48, 48, 48, 48, 52, 10, 20, 30, 40]

/-- The spec's scenario metadata: {points=4, x_increment=1e-6, x_origin=0,
x_reference=0, y_increment=0.01, y_origin=0, y_reference=0}. -/
def scenarioMeta : WfMeta :=
  { number_of_points := 4
  , x_increment := 1 / 1000000
  , x_origin := 0
  , x_reference := 0
  , y_increment := 1 / 100
  , y_origin := 0
  , y_reference := 0 }

/-- The expected scenario time axis [0, 1e-6, 2e-6, 3e-6]. -/
def scenarioTimes : List ℚ := [0, 1 / 1000000, 2 / 1000000, 3 / 1000000]

/-- The expected scenario voltages [0.10, 0.20, 0.30, 0.40]. -/
def scenarioVolts : List ℚ := [1 / 10, 2 / 10, 3 / 10, 4 / 10]

/-- The scenario block's header parses to the payload `[10, 20, 30, 40]`. -/
lemma parseBlock_scenario : parseBlock scenarioBlock = Except.ok [10, 20, 30, 40] := by decide

/-- With a width of one byte the payload is its own sample sequence. -/
lemma toSamples_scenario : toSamples 1 [10, 20, 30, 40] = [10, 20, 30, 40] := by decide

/-- Evaluation of the spec's §8 scenario: decoding the scenario block
yields time `[0, 1e-6, 2e-6, 3e-6]` and voltage `[0.10, 0.20, 0.30, 0.40]`. -/
lemma decode_scenario :
    decode 1 scenarioBlock scenarioMeta = Except.ok (scenarioTimes, scenarioVolts) := by
  unfold decode
  rw [parseBlock_scenario]
  dsimp only
  rw [toSamples_scenario]
  norm_num [scaleTrace, timesFor, voltOf, scenarioMeta, scenarioTimes, scenarioVolts,
    List.range_succ]

/-! ## Decoder length guarantee (C1) -/

/-- C1: for every valid binary block and metadata record, `decode`
returns two equal-length sequences whose length equals the metadata's
declared `number_of_points`; and a payload of length zero yields empty
sequences rather than an error (provided the declared point count is 0,
as validity requires). -/
theorem decode_length_spec :
    (∀ width block meta t v, decode width block meta = Except.ok (t, v) →
       t.length = v.length ∧ t.length = meta.number_of_points)
    ∧ (∀ width block meta, parseBlock block = Except.ok ([] : List Nat) →
       meta.number_of_points = 0 →
       decode width block meta = Except.ok (([], []) : List ℚ × List ℚ)) := by
  constructor
  · intro width block meta t v h
    unfold decode at h
    cases hp : parseBlock block with
    | error e => rw [hp] at h; exact absurd h (by simp)
    | ok payload =>
      rw [hp] at h
      dsimp only at h
      split_ifs at h with h1 h2
      · simp only [scaleTrace, Except.ok.injEq, Prod.mk.injEq] at h
        obtain ⟨ht, hv⟩ := h
        subst ht; subst hv
        simp [timesFor, h2]
  · intro width block meta hp h0
    unfold decode
    rw [hp]
    simp [toSamples, toSamplesAux, h0, scaleTrace, timesFor]

/-- Witness for C1: the spec's scenario block decodes to two sequences of
length 4 = number_of_points, and a zero-payload block (`#10`) with a
0-point metadata decodes to a pair of empty sequences. -/
theorem decode_length_spec_witness :
    (decode 1 scenarioBlock scenarioMeta = Except.ok (scenarioTimes, scenarioVolts)
      ∧ scenarioTimes.length = scenarioVolts.length
      ∧ scenarioTimes.length = scenarioMeta.number_of_points)
    ∧ (parseBlock [35, 49, 48] = Except.ok ([] : List Nat)
      ∧ decode 5 [35, 49, 48]
          { number_of_points := 0, x_increment := 1, x_origin := 0, x_reference := 0
          , y_increment := 1, y_origin := 0, y_reference := 0 }
          = Except.ok (([], []) : List ℚ × List ℚ)) := by
  refine ⟨⟨decode_scenario, ?_⟩, by decide, ?_⟩
  · exact decode_length_spec.1 1 scenarioBlock scenarioMeta scenarioTimes scenarioVolts
      decode_scenario
  · exact decode_length_spec.2 5 [35, 49, 48] _ (by decide) rfl

/-! ## Decoder linear scale transform (C5) -/

/-- C5: for every decoded trace and index `i`,
`time[i] = (i − x_reference) × x_increment + x_origin` and
`voltage[i] = (raw[i] − y_reference) × y_increment + y_origin` where
`raw` is the fixed-width sample sequence of the block's payload; and the
spec's scenario block `#800000004` with 1-byte unsigned payload
`[10, 20, 30, 40]` decodes to time `[0, 1e-6, 2e-6, 3e-6]` and voltage
`[0.10, 0.20, 0.30, 0.40]`. -/
theorem decode_formula_spec :
    (∀ width block meta t v payload, decode width block meta = Except.ok (t, v) →
       parseBlock block = Except.ok payload →
       ∀ i, i < meta.number_of_points →
         t.get? i =
           some (((i : ℚ) - meta.x_reference) * meta.x_increment + meta.x_origin)
         ∧ v.get? i = ((toSamples width payload).get? i).map
             (fun r : Nat => ((r : ℚ) - meta.y_reference) * meta.y_increment + meta.y_origin))
    ∧ decode 1 scenarioBlock scenarioMeta = Except.ok (scenarioTimes, scenarioVolts) := by
  constructor
  · intro width block meta t v payload h hp i hi
    unfold decode at h
    rw [hp] at h
    dsimp only at h
    split_ifs at h with h1 h2
    simp only [scaleTrace, Except.ok.injEq, Prod.mk.injEq] at h
    obtain ⟨ht, hv⟩ := h
    subst ht; subst hv
    refine ⟨?_, ?_⟩
    · rw [timesFor, List.get?_map,
        List.get?_range (by simpa [List.length_map, h2] using hi)]
      rfl
    · rw [List.get?_map, List.get?_map]
      cases (toSamples width payload).get? i <;> simp [voltOf]
  · exact decode_scenario

/-- Witness for C5: the formula instantiated at index 2 of the scenario
trace: time[2] = 2e-6 and voltage[2] = 0.30. -/
theorem decode_formula_spec_witness :
    decode 1 scenarioBlock scenarioMeta = Except.ok (scenarioTimes, scenarioVolts)
    ∧ (scenarioTimes.get? 2 =
         some (((2 : ℚ) - scenarioMeta.x_reference) * scenarioMeta.x_increment
           + scenarioMeta.x_origin)
       ∧ scenarioVolts.get? 2 = ((toSamples 1 [10, 20, 30, 40]).get? 2).map
           (fun r : Nat => ((r : ℚ) - scenarioMeta.y_reference) * scenarioMeta.y_increment
             + scenarioMeta.y_origin)) := by
  refine ⟨decode_formula_spec.2, ?_⟩
  have := decode_formula_spec.1 1 scenarioBlock scenarioMeta scenarioTimes scenarioVolts
    [10, 20, 30, 40] decode_formula_spec.2 parseBlock_scenario 2 (by decide)
  simpa using this

/-! ## Decoder error characterisation (C3) -/

/-- Evaluation of `parseBlock` in terms of the independent block predicates: it succeeds
with the payload slice exactly when the header and the declared length
are consistent. -/
lemma parseBlock_eq (block : List Nat) :
    parseBlock block =
      if headerOk block then
        (if lengthOk block then Except.ok (payloadOf block)
         else Except.error MalformedBlockError.length)
      else Except.error MalformedBlockError.header := by
  cases block with
  | nil => simp [parseBlock, headerOk]
  | cons m bs =>
    cases bs with
    | nil => simp [parseBlock, headerOk]
    | cons d rest =>
      simp only [parseBlock, headerOk, lengthOk, declaredLen, availAfterHeader, payloadOf]
      by_cases hm : m = 35
      · by_cases hd : isDigit d = true
        · by_cases hlen : (rest.take (d - 48)).length = d - 48
          · by_cases hall : (rest.take (d - 48)).all isDigit = true
            · simp_all
            · simp_all
          · simp_all
        · simp_all
      · simp_all

/-- C3: `decode` raises `MalformedBlockError` exactly when the block
is inconsistent — the marker or the length digit sequence is malformed or
non-numeric (`headerOk`), the declared length disagrees with the bytes
actually available (`lengthOk`), or the decoded sample count (including
the byte-width divisibility of the payload) mismatches the declared point
count (`samplesOk`). -/
theorem decode_error_iff (width : Nat) (block : List Nat) (meta : WfMeta) :
    (∃ e, decode width block meta = Except.error e)
    ↔ ¬(headerOk block = true ∧ lengthOk block = true
        ∧ samplesOk width block meta = true) := by
  unfold decode
  rw [parseBlock_eq block]
  by_cases hH : headerOk block = true
  · by_cases hL : lengthOk block = true
    · simp only [hH, hL, if_true]
      unfold samplesOk
      by_cases h1 : (payloadOf block).length % width = 0
      · by_cases h2 : (toSamples width (payloadOf block)).length = meta.number_of_points
        · simp [h1, h2]
        · simp [h1, h2]
      · simp [h1]
    · simp [hH, hL]
  · simp [hH]

/-! ## Decode/encode round trip (C6) -/

/-- C6: re-encoding a decoded trace back into raw samples with the
inverse of the linear scale transform (`rawOf`) and applying the decode
transform again yields the original trace exactly (rationals model the
floating-point values, so "within tolerance" becomes exact equality);
this needs the y-increment to be nonzero, as inverting the scale divides
by it. -/
theorem decode_roundtrip :
    ∀ width block meta t v, decode width block meta = Except.ok (t, v) →
      meta.y_increment ≠ 0 →
      scaleTrace meta (v.map (rawOf meta)) = (t, v) := by
  intro width block meta t v h hy
  unfold decode at h
  cases hp : parseBlock block with
  | error e => rw [hp] at h; exact absurd h (by simp)
  | ok payload =>
    rw [hp] at h
    dsimp only at h
    split_ifs at h with h1 h2
    simp only [scaleTrace, Except.ok.injEq, Prod.mk.injEq] at h
    obtain ⟨ht, hv⟩ := h
    subst ht; subst hv
    have key : ∀ x : ℚ, rawOf meta (voltOf meta x) = x := by
      intro x
      unfold rawOf voltOf
      field_simp
    have hmap :
        (((toSamples width payload).map (fun r : Nat => (r : ℚ))).map (voltOf meta)).map
          (rawOf meta)
        = (toSamples width payload).map (fun r : Nat => (r : ℚ)) := by
      rw [List.map_map]
      simp [Function.comp, key]
    rw [hmap, scaleTrace]

/-- Witness for C6: the round trip at the spec's scenario trace. -/
theorem decode_roundtrip_witness :
    decode 1 scenarioBlock scenarioMeta = Except.ok (scenarioTimes, scenarioVolts)
    ∧ scenarioMeta.y_increment ≠ 0
    ∧ scaleTrace scenarioMeta (scenarioVolts.map (rawOf scenarioMeta))
        = (scenarioTimes, scenarioVolts) := by
  refine ⟨decode_scenario, by norm_num [scenarioMeta], ?_⟩
  exact decode_roundtrip 1 scenarioBlock scenarioMeta scenarioTimes scenarioVolts
    decode_scenario (by norm_num [scenarioMeta])

end DSOX2000

namespace ScopePlot

/-! ## Clean exit on empty selection (C4) -/

/-- C4: an empty file selection makes the program terminate cleanly
with exit status 0, zero figures and no error. -/
theorem empty_selection_clean_exit :
    scopeplotMain [] =
      { exitStatus := 0, figures := [], savefigDir := none, uncaught := none, disk := [] } :=
  rfl

/-! ## Time-column zero shift (C2) -/

/-- A left fold of `min` is bounded by its initial value. -/
lemma foldl_min_le_init (ys : List ℚ) : ∀ y : ℚ, ys.foldl min y ≤ y := by
  induction ys with
  | nil => intro y; simp
  | cons a l ih =>
    intro y
    calc (a :: l).foldl min y = l.foldl min (min y a) := rfl
    _ ≤ min y a := ih (min y a)
    _ ≤ y := min_le_left y a

/-- A left fold of `min` is bounded by every list element. -/
lemma foldl_min_le_mem (ys : List ℚ) : ∀ y : ℚ, ∀ q ∈ ys, ys.foldl min y ≤ q := by
  induction ys with
  | nil => intro y q hq; simp at hq
  | cons a l ih =>
    intro y q hq
    rcases List.mem_cons.mp hq with hqa | hql
    · subst hqa
      calc (q :: l).foldl min y = l.foldl min (min y q) := rfl
      _ ≤ min y q := foldl_min_le_init l (min y q)
      _ ≤ q := min_le_right y q
    · exact ih (min y a) q hql

/-- A left fold of `min` is attained: it is the initial value or a list
element. -/
lemma foldl_min_eq_or_mem (ys : List ℚ) :
    ∀ y : ℚ, ys.foldl min y = y ∨ ys.foldl min y ∈ ys := by
  induction ys with
  | nil => intro y; left; rfl
  | cons a l ih =>
    intro y
    simp only [List.foldl_cons]
    rcases ih (min y a) with heq | hmem
    · rcases min_choice y a with hy | ha
      · left; rw [heq, hy]
      · right; rw [heq, ha]; exact List.mem_cons_self a l
    · right
      exact List.mem_cons_of_mem a hmem

/-- Folding `min` commutes with subtracting a constant. -/
lemma foldl_min_map_sub (m : ℚ) (ys : List ℚ) :
    ∀ y : ℚ, (ys.map (fun x => x - m)).foldl min (y - m) = ys.foldl min y - m := by
  induction ys with
  | nil => intro y; rfl
  | cons a l ih =>
    intro y
    show (l.map (fun x => x - m)).foldl min (min (y - m) (a - m)) = l.foldl min (min y a) - m
    rw [min_sub_sub_right, ih (min y a)]

/-- Subtracting a number from `nan` gives `nan`. -/
lemma osub_none_some (m : ℚ) : osub none (some m) = none := rfl

/-- Numeric subtraction under the `nan` model. -/
lemma osub_some_some (q m : ℚ) : osub (some q) (some m) = some (q - m) := rfl

/-- The numeric entries of the shifted column are the numeric entries of
the original column, each shifted. -/
lemma filterMap_shift (t : List (Option ℚ)) (m : ℚ) :
    (t.map (fun x => osub x (some m))).filterMap id
      = (t.filterMap id).map (fun x => x - m) := by
  induction t with
  | nil => rfl
  | cons a l ih => cases a <;> simp [osub_none_some, osub_some_some, ih]

/-- Subtracting zero elementwise leaves the column unchanged (`nan` cells
included). -/
lemma map_osub_zero (t : List (Option ℚ)) : t.map (fun x => osub x (some 0)) = t := by
  induction t with
  | nil => rfl
  | cons a l ih => cases a <;> simp [osub_none_some, osub_some_some, ih]

/-- The minimum of the spec's concrete time column `[5.0, 5.001, 5.002]`. -/
lemma nanmin_concrete :
    nanmin [some (5 : ℚ), some (5001/1000), some (5002/1000)] = some 5 := by
  have hfm : (([some (5 : ℚ), some (5001/1000), some (5002/1000)]).filterMap id)
      = [5, 5001/1000, 5002/1000] := rfl
  unfold nanmin
  rw [hfm]
  norm_num [List.foldl, min_def]

/-- C2: the plotted time column is the loaded time column minus its
minimum (ignoring `nan`), so the shifted column's minimum is zero; a
column whose minimum is already zero is left unchanged; and the concrete
column `[5.0, 5.001, 5.002]` becomes `[0.0, 0.001, 0.002]`. -/
theorem time_shift_spec (t : List (Option ℚ)) (m : ℚ) (h : nanmin t = some m) :
    shiftTime t = t.map (fun x => osub x (nanmin t))
    ∧ nanmin (shiftTime t) = some 0
    ∧ (m = 0 → shiftTime t = t)
    ∧ shiftTime [some 5, some (5001/1000), some (5002/1000)]
        = [some 0, some (1/1000), some (2/1000)] := by
  refine ⟨rfl, ?_, ?_, ?_⟩
  · unfold shiftTime
    rw [h]
    unfold nanmin at h ⊢
    rw [filterMap_shift]
    cases hc : t.filterMap id with
    | nil => rw [hc] at h; exact absurd h (by simp)
    | cons y ys =>
      rw [hc] at h
      have hm : ys.foldl min y = m := Option.some.inj h
      simp only [List.map_cons]
      rw [foldl_min_map_sub m ys y, hm]
      simp
  · intro h0
    subst h0
    unfold shiftTime
    rw [h]
    exact map_osub_zero t
  · unfold shiftTime
    rw [nanmin_concrete]
    norm_num [osub_some_some, osub_none_some, List.map_cons]

/-- Witness for C2: the concrete column `[5.0, 5.001, 5.002]` has minimum
5; its shift has minimum zero and equals `[0.0, 0.001, 0.002]`. -/
theorem time_shift_spec_witness :
    nanmin [some (5 : ℚ), some (5001/1000), some (5002/1000)] = some 5
    ∧ nanmin (shiftTime [some (5 : ℚ), some (5001/1000), some (5002/1000)]) = some 0
    ∧ shiftTime [some (5 : ℚ), some (5001/1000), some (5002/1000)]
        = [some 0, some (1/1000), some (2/1000)] := by
  refine ⟨nanmin_concrete, ?_, ?_⟩
  · exact (time_shift_spec _ 5 nanmin_concrete).2.1
  · exact (time_shift_spec _ 5 nanmin_concrete).2.2.2

/-! ## One-dimensional inputs fail with an IndexError (C10) -/

/-- C10: a file whose contents parse to a one-dimensional array — a
single data row, or a single column such as a time-only file — fails with
NumPy's indexing error when the script slices `data[:,0]`, producing
neither a figure nor a `FileLoadError`. -/
theorem oneD_indexError (path : String) (rows : List (List RawCell))
    (hne : rows ≠ [])
    (h1 : rows.length = 1 ∨ ∀ row ∈ rows, row.length = 1) :
    processFile path rows = Except.error PyError.indexError
    ∧ (∀ p, processFile path rows ≠ Except.error (PyError.fileLoadError p))
    ∧ (∀ fig, processFile path rows ≠ Except.ok fig) := by
  obtain ⟨r0, rs, rfl⟩ : ∃ r0 rs, rows = r0 :: rs := by
    cases rows with
    | nil => exact absurd rfl hne
    | cons a l => exact ⟨a, l, rfl⟩
  have hgen : ∃ v, genfromtxt (r0 :: rs) = Except.ok (NDArray.oneD v) := by
    rcases h1 with hlen | hcols
    · have : rs = [] := by
        simp only [List.length_cons] at hlen
        exact List.eq_nil_of_length_eq_zero (by omega)
      subst this
      exact ⟨r0.map convCell, by simp [genfromtxt]⟩
    · cases rs with
      | nil => exact ⟨r0.map convCell, by simp [genfromtxt]⟩
      | cons s ss =>
        have h0 : r0.length = 1 := hcols r0 (by simp)
        unfold genfromtxt
        dsimp only [List.map_cons]
        split_ifs with hA hB hC
        · exact ⟨_, rfl⟩
        · exact ⟨_, rfl⟩
        · exact absurd (by simp [h0] : (r0.map convCell).length = 1) hC
        · exfalso
          apply hA
          simp only [List.all_eq_true]
          intro x hx
          rcases List.mem_cons.mp hx with rfl | hmem
          · simp [h0, hcols s (by simp)]
          · obtain ⟨row, hrow, rfl⟩ := List.mem_map.mp hmem
            simp [h0, hcols row (by simp [hrow])]
  obtain ⟨v, hgen⟩ := hgen
  have hpf : processFile path (r0 :: rs) = Except.error PyError.indexError := by
    unfold processFile
    rw [hgen]
    simp [col0]
  refine ⟨hpf, ?_, ?_⟩
  · intro p hcontra
    rw [hpf] at hcontra
    simp at hcontra
  · intro fig hcontra
    rw [hpf] at hcontra
    simp at hcontra

/-- Witness for C10: a single-row file raises the indexing error. -/
theorem oneD_indexError_witness :
    ([[RawCell.num 1, RawCell.num 2]] : List (List RawCell)) ≠ []
    ∧ processFile ("x.csv") [[RawCell.num 1, RawCell.num 2]]
        = Except.error PyError.indexError := by
  refine ⟨by simp, ?_⟩
  exact (oneD_indexError ("x.csv") [[RawCell.num 1, RawCell.num 2]] (by simp) (Or.inl rfl)).1

/-! ## Unparsable cells become nan, the file still plots (C8) -/

/-- C8: in a parsable file (rectangular, at least two rows and two
columns), a non-numeric or missing cell loads as a `nan` placeholder
(modelled `none`) at its position in the table, and the file is still
processed to a figure rather than aborted. -/
theorem nan_cells_spec (path : String) (rows : List (List RawCell)) (ncols : Nat)
    (hrect : ∀ row ∈ rows, row.length = ncols)
    (hrows : 2 ≤ rows.length) (hcols : 2 ≤ ncols)
    (i j : Nat) (row : List RawCell) (cell : RawCell)
    (hrow : rows.get? i = some row) (hcell : row.get? j = some cell)
    (hbad : convCell cell = none) :
    genfromtxt rows = Except.ok (NDArray.twoD (rows.map (fun r => r.map convCell)))
    ∧ (rows.map (fun r => r.map convCell)).get? i = some (row.map convCell)
    ∧ (row.map convCell).get? j = some none
    ∧ ∃ fig, processFile path rows = Except.ok fig := by
  obtain ⟨r0, rs, rfl⟩ : ∃ r0 rs, rows = r0 :: rs := by
    cases rows with
    | nil => simp at hrows
    | cons a l => exact ⟨a, l, rfl⟩
  have hsne : rs ≠ [] := by
    intro hnil
    subst hnil
    simp at hrows
  have h0 : r0.length = ncols := hrect r0 (by simp)
  have hgen : genfromtxt (r0 :: rs)
      = Except.ok (NDArray.twoD ((r0 :: rs).map (fun r => r.map convCell))) := by
    unfold genfromtxt
    dsimp only [List.map_cons]
    rw [if_pos, if_neg, if_neg]
    · simp [List.length_map, h0]
      omega
    · simp [List.isEmpty_eq_true, hsne]
    · simp only [List.all_eq_true]
      intro x hx
      obtain ⟨r, hr, rfl⟩ := List.mem_map.mp hx
      simp [h0, hrect r (by simp [hr])]
  refine ⟨hgen, ?_, ?_, ?_⟩
  · rw [List.get?_map, hrow]
    rfl
  · rw [List.get?_map, hcell]
    simp [hbad]
  · cases hpf : processFile path (r0 :: rs) with
    | ok fig => exact ⟨fig, rfl⟩
    | error e =>
      exfalso
      unfold processFile at hpf
      rw [hgen] at hpf
      simp [col0, colsRest] at hpf

/-- Witness for C8: a file with a textual cell at row 0, column 1 loads
it as `nan` and still yields a figure. -/
theorem nan_cells_spec_witness :
    genfromtxt [[RawCell.num 1, RawCell.text], [RawCell.num 2, RawCell.num 3]]
      = Except.ok (NDArray.twoD [[some 1, none], [some 2, some 3]])
    ∧ ([RawCell.num 1, RawCell.text].map convCell).get? 1 = some none
    ∧ ∃ fig, processFile ("d/f.csv")
        [[RawCell.num 1, RawCell.text], [RawCell.num 2, RawCell.num 3]]
        = Except.ok fig := by
  have h := nan_cells_spec ("d/f.csv")
    [[RawCell.num 1, RawCell.text], [RawCell.num 2, RawCell.num 3]] 2
    (by decide) (by decide) (by decide) 0 1 [RawCell.num 1, RawCell.text] RawCell.text
    rfl rfl rfl
  refine ⟨?_, h.2.2.1, h.2.2.2⟩
  rw [h.1]
  rfl

/-! ## Batch state: the save-directory side effect (C9) -/

/-- The loop on all-successful files: figures accumulate one per file,
each depending only on its own file, and the save directory tracks the
directory of the most recently processed file. -/
lemma runBatch_all_ok (files : List (String × List (List RawCell))) :
    ∀ figs dir, (∀ f ∈ files, (processFile f.1 f.2).isOk = true) →
    runBatch figs dir files
      = (figs ++ files.filterMap (fun f => (processFile f.1 f.2).toOption),
         files.getLast?.elim dir (fun f => some (dirname f.1)),
         none) := by
  induction files with
  | nil => intro figs dir _; simp [runBatch]
  | cons f fs ih =>
    intro figs dir hok
    obtain ⟨fig, hf⟩ : ∃ fig, processFile f.1 f.2 = Except.ok fig := by
      have := hok f (by simp)
      cases hpf : processFile f.1 f.2 with
      | ok fig => exact ⟨fig, rfl⟩
      | error e => rw [hpf] at this; simp [Except.isOk, Except.toBool] at this
    unfold runBatch
    rw [hf]
    dsimp only
    rw [ih (figs ++ [fig]) (some (dirname f.1)) (fun g hg => hok g (by simp [hg]))]
    cases fs with
    | nil => simp [List.filterMap_cons, hf, Except.toOption]
    | cons g gs =>
      obtain ⟨x, hx⟩ := Option.isSome_iff_exists.mp
        ((List.getLast?_isSome (l := g :: gs)).mpr (by simp))
      simp [List.filterMap_cons, hf, Except.toOption, hx]

/-- C9: a successful batch changes no shared state visible across
files except the save directory: the figures are one per file, each a
function of that file alone; the files on disk are untouched; no error
escapes; and the save directory ends as the directory of the most
recently processed (last) file. -/
theorem batch_side_effect_spec (files : List (String × List (List RawCell)))
    (hne : files ≠ [])
    (hok : ∀ f ∈ files, (processFile f.1 f.2).isOk = true) :
    (scopeplotMain files).savefigDir = some (dirname (files.getLast hne).1)
    ∧ (scopeplotMain files).figures
        = files.filterMap (fun f => (processFile f.1 f.2).toOption)
    ∧ (scopeplotMain files).disk = files
    ∧ (scopeplotMain files).uncaught = none
    ∧ (scopeplotMain files).exitStatus = 0 := by
  unfold scopeplotMain
  rw [runBatch_all_ok files [] none hok]
  have hgl : files.getLast? = some (files.getLast hne) := List.getLast?_eq_getLast files hne
  rw [if_neg (by simp [List.isEmpty_eq_true, hne])]
  simp [hgl]

/-- Witness for C9: a two-file batch ends with the second file's
directory as the save directory, the input files untouched and no
uncaught error. -/
theorem batch_side_effect_spec_witness :
    (processFile goodFile1.1 goodFile1.2).isOk = true
    ∧ (processFile goodFile2.1 goodFile2.2).isOk = true
    ∧ (scopeplotMain [goodFile1, goodFile2]).savefigDir = some (dirname goodFile2.1)
    ∧ (scopeplotMain [goodFile1, goodFile2]).disk = [goodFile1, goodFile2]
    ∧ (scopeplotMain [goodFile1, goodFile2]).uncaught = none := by
  have hok : ∀ f ∈ [goodFile1, goodFile2], (processFile f.1 f.2).isOk = true := by
    intro f hf
    rcases List.mem_cons.mp hf with rfl | hf2
    · decide
    · rw [List.mem_singleton] at hf2
      subst hf2
      decide
  have h := batch_side_effect_spec [goodFile1, goodFile2] (by simp) hok
  refine ⟨by decide, by decide, ?_, h.2.2.1, h.2.2.2.1⟩
  rw [h.1]
  rfl

/-! ## Unparsable files abort the batch, but with the parser's own error,
not a `FileLoadError` (C7) -/

/-- Counterexample to C7 as stated: on a batch whose first file has
inconsistent column counts, the script aborts with the parser's own
uncaught error (`genfromtxtError`) — it is not a `FileLoadError`
identifying the offending path, because the script defines and raises no
such error. -/
theorem batch_no_fileLoadError_counterexample :
    (scopeplotMain [badFile, goodFile2]).uncaught = some PyError.genfromtxtError
    ∧ Option.map isFileLoadError ((scopeplotMain [badFile, goodFile2]).uncaught)
        = some false
    ∧ (scopeplotMain [badFile, goodFile2]).figures = [] :=
  ⟨by decide, by decide, by decide⟩

/-- The loop when every file before some file `f` succeeds and `f` itself
raises: the figures are those of the files before `f`, the save directory
is that of the last file before `f`, and `f`'s error surfaces. -/
lemma runBatch_error_at (f : String × List (List RawCell))
    (post : List (String × List (List RawCell))) (e : PyError)
    (pre : List (String × List (List RawCell))) :
    ∀ figs dir, (∀ g ∈ pre, (processFile g.1 g.2).isOk = true) →
    processFile f.1 f.2 = Except.error e →
    runBatch figs dir (pre ++ f :: post)
      = (figs ++ pre.filterMap (fun g => (processFile g.1 g.2).toOption),
         pre.getLast?.elim dir (fun g => some (dirname g.1)),
         some e) := by
  induction pre with
  | nil =>
    intro figs dir _ hf
    rw [List.nil_append]
    unfold runBatch
    rw [hf]
    simp
  | cons g gs ih =>
    intro figs dir hok hf
    obtain ⟨fig, hg⟩ : ∃ fig, processFile g.1 g.2 = Except.ok fig := by
      have := hok g (by simp)
      cases hpg : processFile g.1 g.2 with
      | ok fig => exact ⟨fig, rfl⟩
      | error e => rw [hpg] at this; simp [Except.isOk, Except.toBool] at this
    rw [List.cons_append]
    unfold runBatch
    rw [hg]
    dsimp only
    rw [ih (figs ++ [fig]) (some (dirname g.1)) (fun x hx => hok x (by simp [hx])) hf]
    cases gs with
    | nil => simp [List.filterMap_cons, hg, Except.toOption]
    | cons x xs =>
      obtain ⟨y, hy⟩ := Option.isSome_iff_exists.mp
        ((List.getLast?_isSome (l := x :: xs)).mpr (by simp))
      simp [List.filterMap_cons, hg, Except.toOption, hy]

/-- C7 (amended): a selected file that cannot be parsed as delimited
numeric data aborts the batch at that file — the parser's own error
propagates uncaught, the interpreter exits with nonzero status, and no
figure is produced for that file or any later one; the error is not
wrapped in a `FileLoadError` identifying the offending path. -/
theorem batch_aborts_on_unparsable (pre : List (String × List (List RawCell)))
    (f : String × List (List RawCell)) (post : List (String × List (List RawCell)))
    (hpre : ∀ g ∈ pre, (processFile g.1 g.2).isOk = true)
    (hf : processFile f.1 f.2 = Except.error PyError.genfromtxtError) :
    (scopeplotMain (pre ++ f :: post)).uncaught = some PyError.genfromtxtError
    ∧ (scopeplotMain (pre ++ f :: post)).figures
        = pre.filterMap (fun g => (processFile g.1 g.2).toOption)
    ∧ (scopeplotMain (pre ++ f :: post)).exitStatus = 1 := by
  unfold scopeplotMain
  rw [if_neg (by simp)]
  rw [runBatch_error_at f post PyError.genfromtxtError pre [] none hpre hf]
  simp

/-- Witness for C7 (amended): a good file, then an unparsable file, then
another good file: the batch aborts at the unparsable file with the
parser's error and exits nonzero. -/
theorem batch_aborts_on_unparsable_witness :
    (processFile goodFile1.1 goodFile1.2).isOk = true
    ∧ processFile badFile.1 badFile.2 = Except.error PyError.genfromtxtError
    ∧ (scopeplotMain [goodFile1, badFile, goodFile2]).uncaught
        = some PyError.genfromtxtError
    ∧ (scopeplotMain [goodFile1, badFile, goodFile2]).exitStatus = 1 := by
  have hpre : ∀ g ∈ [goodFile1], (processFile g.1 g.2).isOk = true := by
    intro g hg
    rw [List.mem_singleton] at hg
    subst hg
    decide
  have hbad : processFile badFile.1 badFile.2 = Except.error PyError.genfromtxtError := by
    decide
  refine ⟨by decide, hbad, ?_, ?_⟩
  · exact (batch_aborts_on_unparsable [goodFile1] badFile [goodFile2] hpre hbad).1
  · exact (batch_aborts_on_unparsable [goodFile1] badFile [goodFile2] hpre hbad).2.2

end ScopePlot
